import Mathlib

/-!
Verification of the whitelist feature store and similarity-based decision
engine of the video review system (`src/whitelist/feature_store.py`,
`src/pipeline/decision.py`).

Modelling conventions:
* numpy float32 arithmetic is modelled by exact real arithmetic (`ℝ`);
  "within floating-point tolerance" statements become exact statements.
* Python dicts are modelled as association lists with `dlookup`, `dinsert`
  (update-in-place or append, as dict assignment does), and `derase`.
* The store is modelled after the numpy fallback branch of
  `feature_store.py` (`FAISS_AVAILABLE = False`); the FAISS branch has the
  same logical interface.
* The video encoder is an external collaborator (spec section 1): `review`
  takes the extracted metadata and feature vector as inputs, so the
  encoder-failure branches (`read_error` / `extraction_error`) of
  `ReviewDecisionMaker.review` do not arise in the model.
* `datetime.now()` is passed in as an opaque string argument `now`.
-/

namespace VideoJiancha

/-- A feature vector: ordered sequence of floats (`np.ndarray` 1-D). -/
abbrev Vec := List ℝ

/-- The epsilon floor `1e-8` used in `feature / (np.linalg.norm(feature) + 1e-8)`. -/
noncomputable def eps : ℝ := 1 / 100000000

/-- Sum of squares of the entries of a vector. -/
def sumSq (v : Vec) : ℝ := (v.map fun x => x * x).sum

/-- `np.linalg.norm`: the L2 norm. -/
noncomputable def l2norm (v : Vec) : ℝ := Real.sqrt (sumSq v)

/-- `feature / (np.linalg.norm(feature) + 1e-8)` (feature_store.py line 134,
query preprocessing line 203). -/
noncomputable def normalize (v : Vec) : Vec := v.map fun x => x / (l2norm v + eps)

/-- Inner product of two vectors (`np.dot` row-by-row). -/
def dot (a b : Vec) : ℝ := (List.zipWith (· * ·) a b).sum

/-- Dict lookup: `d[k]` / `d.get(k)` on an association list. -/
def dlookup {κ α : Type} [DecidableEq κ] (k : κ) : List (κ × α) → Option α
  | [] => none
  | (k', v) :: rest => if k' = k then some v else dlookup k rest

/-- Dict assignment `d[k] = v`: update in place if the key exists
(preserving insertion order), else append. -/
def dinsert {κ α : Type} [DecidableEq κ] (k : κ) (v : α) (l : List (κ × α)) :
    List (κ × α) :=
  if (dlookup k l).isSome then
    l.map fun p => if p.1 = k then (k, v) else p
  else l ++ [(k, v)]

/-- Dict deletion `del d[k]`. -/
def derase {κ α : Type} [DecidableEq κ] (k : κ) : List (κ × α) → List (κ × α)
  | [] => []
  | p :: rest => if p.1 = k then derase k rest else p :: derase k rest

/-- Metadata attached to a record (`Dict[str, Any]`), kept opaque. -/
abbrev Meta := List (String × String)

/-- `VideoRecord` dataclass (feature_store.py lines 22-28). -/
structure VideoRecord where
  video_id : String
  video_path : String
  added_time : String
  metadata : Option Meta
deriving DecidableEq

/-- `FeatureStore` state (feature_store.py): record table, both slot
mappings, and the underlying vector storage (`features_matrix` in the
numpy branch).  `storage_path` is filesystem glue and not modelled. -/
structure FeatureStore where
  dimension : ℕ
  index_type : String
  records : List (String × VideoRecord)
  id_to_idx : List (String × ℕ)
  idx_to_id : List (ℕ × String)
  features_matrix : List Vec

/-- A freshly initialised store (`FeatureStore.__init__` with no persisted
state). -/
def FeatureStore.init (dimension : ℕ) (index_type : String) : FeatureStore :=
  ⟨dimension, index_type, [], [], [], []⟩

/-- `size` property: `len(self.records)` (lines 93-96). -/
def FeatureStore.size (st : FeatureStore) : ℕ := st.records.length

/-- `remove` (lines 158-181): false if absent; otherwise deletes the record
and both mapping entries, leaving `features_matrix` untouched (the vector
becomes a tombstone).  The source reads `self.id_to_idx[video_id]` and
would raise `KeyError` were the entry missing; that situation cannot arise
for stores satisfying the slot-mapping invariant, and the model simply
erases what is present. -/
def FeatureStore.remove (st : FeatureStore) (video_id : String) :
    Bool × FeatureStore :=
  if (dlookup video_id st.records).isSome then
    match dlookup video_id st.id_to_idx with
    | some idx =>
        (true, { st with
          records := derase video_id st.records
          id_to_idx := derase video_id st.id_to_idx
          idx_to_id := derase idx st.idx_to_id })
    | none =>
        (true, { st with
          records := derase video_id st.records
          id_to_idx := derase video_id st.id_to_idx })
  else (false, st)

/-- Outcome of `add`: either a boolean return value or the `ValueError`
raised on a dimension mismatch (line 131). -/
inductive AddOutcome where
  | ok (b : Bool)
  | dimMismatch
deriving DecidableEq

/-- Lines 128-156 of `add`: dimension check, normalisation, append to the
index, record creation and installation of both mappings. -/
noncomputable def FeatureStore.addFresh (st : FeatureStore) (video_id : String)
    (feature : Vec) (video_path : String) (metadata : Option Meta)
    (now : String) : AddOutcome × FeatureStore :=
  if feature.length ≠ st.dimension then (.dimMismatch, st)
  else
    let f := normalize feature
    let idx := st.features_matrix.length
    (.ok true, { st with
      features_matrix := st.features_matrix ++ [f]
      records := dinsert video_id ⟨video_id, video_path, now, metadata⟩ st.records
      id_to_idx := dinsert video_id idx st.id_to_idx
      idx_to_id := dinsert idx video_id st.idx_to_id })

/-- `add` (lines 98-156): existence check first (returns false without
mutation when present and `overwrite` is false; removes the old record when
`overwrite` is true), then the fresh-add body. -/
noncomputable def FeatureStore.add (st : FeatureStore) (video_id : String)
    (feature : Vec) (video_path : String) (metadata : Option Meta)
    (overwrite : Bool) (now : String) : AddOutcome × FeatureStore :=
  if (dlookup video_id st.records).isSome then
    if overwrite then
      ((st.remove video_id).2).addFresh video_id feature video_path metadata now
    else (.ok false, st)
  else st.addFresh video_id feature video_path metadata now

/-- One entry of a `search` result list. -/
structure SearchResult where
  video_id : String
  similarity : ℝ
  record : VideoRecord

/-- The result-collection loop of `search` (lines 219-231): walk the ranked
candidates, skip slots absent from `idx_to_id` (tombstones), and stop once
`top_k` live results are collected.  `k` is the number of results still
needed; the source appends and then breaks when `len(results) >= top_k`,
which is `k ≤ 1` after an append.  (The source reads `self.records[video_id]`
directly, presupposing the invariant that live slots have records; the
model skips an entry whose record is missing.) -/
def collectResults (st : FeatureStore) : ℕ → List (ℕ × ℝ) → List SearchResult
  | _, [] => []
  | k, (idx, score) :: rest =>
    match dlookup idx st.idx_to_id with
    | none => collectResults st k rest
    | some vid =>
      match dlookup vid st.records with
      | none => collectResults st k rest
      | some rec =>
          ⟨vid, score, rec⟩ :: (if k ≤ 1 then [] else collectResults st (k - 1) rest)

/-- `search` (lines 183-233, numpy branch): empty result on an empty store;
otherwise normalise the query, score every stored vector by inner product,
rank descending (`np.argsort(scores)[::-1]`), over-fetch `top_k * 2`
candidates, and filter out tombstoned slots. -/
noncomputable def FeatureStore.search (st : FeatureStore) (query_feature : Vec)
    (top_k : ℕ) : List SearchResult :=
  if st.size = 0 then []
  else
    let q := normalize query_feature
    let scores := st.features_matrix.map fun fv => dot fv q
    let ranked := (List.insertionSort (fun a b : ℕ × ℝ => b.2 ≤ a.2) scores.enum).take (top_k * 2)
    collectResults st top_k ranked

/-- What `save` (lines 243-273) writes to disk: the vector storage plus the
metadata document (`dimension`, `index_type`, the record table, both slot
mappings).  JSON / `np.save` round-tripping is exact in the model. -/
structure SavedStore where
  dimension : ℕ
  index_type : String
  records : List (String × VideoRecord)
  id_to_idx : List (String × ℕ)
  idx_to_id : List (ℕ × String)
  features : List Vec

/-- `save` (lines 243-273). -/
def FeatureStore.save (st : FeatureStore) : SavedStore :=
  ⟨st.dimension, st.index_type, st.records, st.id_to_idx, st.idx_to_id,
    st.features_matrix⟩

/-- `load` (lines 275-317) on a successfully saved artifact: every modelled
field of the receiving store is overwritten from the saved data. -/
def FeatureStore.load (data : SavedStore) (_st : FeatureStore) : FeatureStore :=
  ⟨data.dimension, data.index_type, data.records, data.id_to_idx,
    data.idx_to_id, data.features⟩

/-- `VideoMetadata` dataclass (video_encoder.py lines 16-25). -/
structure VideoMetadata where
  width : ℕ
  height : ℕ
  fps : ℝ
  total_frames : ℕ
  duration : ℝ
  is_vertical : Bool
  has_black_borders : Bool

/-- `ReviewDecision` enum (decision.py lines 15-19). -/
inductive ReviewDecision where
  | approved
  | rejected
  | manual_review
deriving DecidableEq

/-- The distinct reason messages built by `review`, modelled as tagged
values carrying the same data as the source's formatted strings. -/
inductive Reason where
  | formatViolation (flags : List String)
  | emptyStore
  | noMatch
  | highSimilarity (s : ℝ)
  | lowSimilarity (s : ℝ)
  | midSimilarity (s : ℝ)

/-- `ReviewResult` dataclass (decision.py lines 22-30). -/
structure ReviewResult where
  decision : ReviewDecision
  confidence : ℝ
  reason : Reason
  similar_videos : List SearchResult
  metadata : Option VideoMetadata
  flags : Option (List String)

/-- `ReviewDecisionMaker` configuration (decision.py lines 60-82); the
extractor is the external encoder and is not part of the model. -/
structure ReviewDecisionMaker where
  store : FeatureStore
  auto_pass_threshold : ℝ
  auto_reject_threshold : ℝ
  enable_format_check : Bool

/-- The format-check flag accumulation of `review` (lines 110-115):
`vertical_video` and `black_borders` are appended only when format checking
is enabled. -/
def formatFlags (m : ReviewDecisionMaker) (metadata : VideoMetadata) :
    List String :=
  if m.enable_format_check then
    (if metadata.is_vertical then ["vertical_video"] else []) ++
      (if metadata.has_black_borders then ["black_borders"] else [])
  else []

/-- `flags if flags else None` (line 184). -/
def optFlags (fl : List String) : Option (List String) :=
  if fl = [] then none else some fl

/-- `review` (decision.py lines 84-185) given the already-extracted
metadata and feature vector: format check, empty-store check, similarity
search, then threshold-based decision on the top similarity. -/
noncomputable def ReviewDecisionMaker.review (m : ReviewDecisionMaker)
    (metadata : VideoMetadata) (feature : Vec) (top_k : ℕ) : ReviewResult :=
  let flags := formatFlags m metadata
  if flags ≠ [] then
    ⟨.rejected, 1, .formatViolation flags, [], some metadata, some flags⟩
  else if m.store.size = 0 then
    ⟨.manual_review, 0, .emptyStore, [], some metadata, some ["empty_store"]⟩
  else
    match m.store.search feature top_k with
    | [] => ⟨.manual_review, 0, .noMatch, [], some metadata, some ["no_match"]⟩
    | top :: rest =>
      let s := top.similarity
      if s ≥ m.auto_pass_threshold then
        ⟨.approved, s, .highSimilarity s, top :: rest, some metadata,
          optFlags flags⟩
      else if s ≤ m.auto_reject_threshold then
        ⟨.rejected, s, .lowSimilarity s, top :: rest, some metadata,
          optFlags (flags ++ ["low_similarity"])⟩
      else
        ⟨.manual_review, s, .midSimilarity s, top :: rest, some metadata,
          optFlags flags⟩

/-- `update_thresholds` (decision.py lines 187-196). -/
def ReviewDecisionMaker.update_thresholds (m : ReviewDecisionMaker)
    (auto_pass : Option ℝ) (auto_reject : Option ℝ) : ReviewDecisionMaker :=
  { m with
    auto_pass_threshold := auto_pass.getD m.auto_pass_threshold
    auto_reject_threshold := auto_reject.getD m.auto_reject_threshold }

/-- The format check passes: checking is disabled, or neither disqualifying
condition holds. -/
def formatPasses (m : ReviewDecisionMaker) (metadata : VideoMetadata) : Prop :=
  m.enable_format_check = false ∨
    (metadata.is_vertical = false ∧ metadata.has_black_borders = false)

/-- A store operation issued by a client (ingestion or feedback):
`FeatureStore.add` or `FeatureStore.remove` with its arguments. -/
inductive StoreOp where
  | addOp (video_id : String) (feature : Vec) (video_path : String)
      (metadata : Option Meta) (overwrite : Bool) (now : String)
  | removeOp (video_id : String)

/-- The store state after one operation. -/
noncomputable def applyOp (st : FeatureStore) : StoreOp → FeatureStore
  | .addOp id f p m ow now => (st.add id f p m ow now).2
  | .removeOp id => (st.remove id).2

/-- The store state after a sequence of operations. -/
noncomputable def runOps (st : FeatureStore) : List StoreOp → FeatureStore
  | [] => st
  | op :: rest => runOps (applyOp st op) rest

/-- Success counts of one operation against a given state:
`(successful adds, successful removes)`.  A successful `remove` call is
counted whether it was issued directly or performed internally by
`add(..., overwrite=true)` on a present id (line 126 calls
`self.remove`). -/
noncomputable def opCounts (st : FeatureStore) : StoreOp → ℕ × ℕ
  | .addOp id f p m ow now =>
      ((if (st.add id f p m ow now).1 = .ok true then 1 else 0),
       (if (dlookup id st.records).isSome ∧ ow = true then 1 else 0))
  | .removeOp id => (0, if (st.remove id).1 then 1 else 0)

/-- Total success counts along a trace. -/
noncomputable def traceCounts (st : FeatureStore) : List StoreOp → ℕ × ℕ
  | [] => (0, 0)
  | op :: rest =>
      let c := opCounts st op
      let c' := traceCounts (applyOp st op) rest
      (c.1 + c'.1, c.2 + c'.2)

/-- The slot mappings are mutually inverse in the direction needed to make
tombstone filtering sound: every `idx_to_id` entry is matched by the
`id_to_idx` entry of its id.  This holds for every store reachable by
`add`/`remove` from an empty store. -/
def SlotInverse (st : FeatureStore) : Prop :=
  ∀ p ∈ st.idx_to_id, dlookup p.2 st.id_to_idx = some p.1

instance (st : FeatureStore) : Decidable (SlotInverse st) := by
  unfold SlotInverse; infer_instance

/-! ### Concrete fixtures used by witnesses and counterexamples -/

/-- A fixed record for the id `"a"`. -/
def recA : VideoRecord := ⟨"a", "/videos/a.mp4", "2026-01-01T00:00:00", none⟩

/-- A one-entry store of dimension 1 whose only stored vector is `[1]` at
slot 0, registered to id `"a"`. -/
noncomputable def stOne : FeatureStore :=
  ⟨1, "flat", [("a", recA)], [("a", 0)], [(0, "a")], [[1]]⟩

/-- Metadata of a well-formed horizontal video without black borders. -/
noncomputable def mdOk : VideoMetadata := ⟨1920, 1080, 30, 300, 10, false, false⟩

/-- Metadata of a vertical video. -/
noncomputable def mdVertical : VideoMetadata := ⟨1080, 1920, 30, 300, 10, true, false⟩

/-- The similarity that `stOne.search [1] k` reports for `"a"`:
the stored vector `[1]` scored against the normalised query `[1]`. -/
noncomputable def simOne : ℝ := 1 / (1 + eps)

/-- The record-table keys are distinct (true of every store reachable from
an empty store, since dict keys are unique). -/
def keysNodup (st : FeatureStore) : Prop := (st.records.map Prod.fst).Nodup

/-- A decision maker over `stOne` whose two thresholds are both exactly the
top similarity that `stOne.search [1] _` reports, with format checking
disabled. -/
noncomputable def cexM : ReviewDecisionMaker := ⟨stOne, simOne, simOne, false⟩

/-! ### Association-list (dict) lemmas -/

theorem dlookup_eq_none_iff {κ α : Type} [DecidableEq κ] (k : κ)
    (l : List (κ × α)) : dlookup k l = none ↔ k ∉ l.map Prod.fst := by
  induction l with
  | nil => simp [dlookup]
  | cons p rest ih =>
    obtain ⟨k', v⟩ := p
    by_cases h : k' = k
    · subst h; simp [dlookup]
    · rw [List.map_cons, List.mem_cons]
      simp only [dlookup, if_neg h, ih]
      constructor
      · intro hn hm
        rcases hm with hm | hm
        · exact h hm.symm
        · exact hn hm
      · intro hn hm
        exact hn (Or.inr hm)

theorem mem_of_dlookup {κ α : Type} [DecidableEq κ] {k : κ} {v : α}
    {l : List (κ × α)} (h : dlookup k l = some v) : (k, v) ∈ l := by
  induction l with
  | nil => simp [dlookup] at h
  | cons p rest ih =>
    obtain ⟨k', v'⟩ := p
    by_cases hk : k' = k
    · subst hk
      simp [dlookup] at h
      simp [h]
    · simp [dlookup, hk] at h
      simp [ih h]

theorem dlookup_derase {κ α : Type} [DecidableEq κ] (i k : κ)
    (l : List (κ × α)) :
    dlookup i (derase k l) = if i = k then none else dlookup i l := by
  induction l with
  | nil => simp [dlookup, derase]
  | cons p rest ih =>
    obtain ⟨k', v⟩ := p
    rw [derase]
    by_cases hk : k' = k
    · rw [if_pos hk, ih]
      by_cases hik : i = k
      · simp [hik]
      · rw [if_neg hik, if_neg hik]
        conv_rhs => rw [dlookup, if_neg (show ¬ k' = i from fun h => hik (h ▸ hk))]
    · rw [if_neg hk, dlookup]
      by_cases hik : k' = i
      · rw [if_pos hik, if_neg (show ¬ i = k from fun h => hk (hik.trans h))]
        rw [dlookup, if_pos hik]
      · rw [if_neg hik, ih]
        by_cases hik2 : i = k
        · simp [hik2]
        · rw [if_neg hik2, if_neg hik2]
          conv_rhs => rw [dlookup, if_neg hik]

theorem derase_eq_self {κ α : Type} [DecidableEq κ] {k : κ}
    {l : List (κ × α)} (h : dlookup k l = none) : derase k l = l := by
  induction l with
  | nil => rfl
  | cons p rest ih =>
    obtain ⟨k', v⟩ := p
    rw [dlookup] at h
    by_cases hk : k' = k
    · rw [if_pos hk] at h; exact absurd h (by simp)
    · rw [if_neg hk] at h
      rw [derase, if_neg hk, ih h]

theorem length_derase {κ α : Type} [DecidableEq κ] {k : κ}
    {l : List (κ × α)} (hnd : (l.map Prod.fst).Nodup)
    (h : (dlookup k l).isSome) : (derase k l).length + 1 = l.length := by
  induction l with
  | nil => simp [dlookup] at h
  | cons p rest ih =>
    obtain ⟨k', v⟩ := p
    rw [List.map_cons, List.nodup_cons] at hnd
    by_cases hk : k' = k
    · subst hk
      have hrest : dlookup k' rest = none := by
        rw [dlookup_eq_none_iff]; exact hnd.1
      rw [derase, if_pos rfl, derase_eq_self hrest]
      simp
    · rw [dlookup, if_neg hk] at h
      rw [derase, if_neg hk]
      have h2 := ih hnd.2 h
      simp only [List.length_cons]
      omega

theorem derase_sublist {κ α : Type} [DecidableEq κ] (k : κ)
    (l : List (κ × α)) : (derase k l).Sublist l := by
  induction l with
  | nil => simp [derase]
  | cons p rest ih =>
    rw [derase]
    by_cases hk : p.1 = k
    · rw [if_pos hk]; exact ih.cons p
    · rw [if_neg hk]; exact ih.cons₂ p

theorem nodup_keys_derase {κ α : Type} [DecidableEq κ] {k : κ}
    {l : List (κ × α)} (hnd : (l.map Prod.fst).Nodup) :
    ((derase k l).map Prod.fst).Nodup :=
  hnd.sublist ((derase_sublist k l).map Prod.fst)

theorem dinsert_of_none {κ α : Type} [DecidableEq κ] {k : κ} (v : α)
    {l : List (κ × α)} (h : dlookup k l = none) :
    dinsert k v l = l ++ [(k, v)] := by
  simp [dinsert, h]

theorem nodup_keys_dinsert_of_none {κ α : Type} [DecidableEq κ] {k : κ}
    (v : α) {l : List (κ × α)} (hnd : (l.map Prod.fst).Nodup)
    (h : dlookup k l = none) : ((dinsert k v l).map Prod.fst).Nodup := by
  rw [dinsert_of_none v h]
  have hk : k ∉ l.map Prod.fst := (dlookup_eq_none_iff k l).mp h
  simp [List.nodup_append, hnd, hk]

theorem length_dinsert_of_none {κ α : Type} [DecidableEq κ] {k : κ} (v : α)
    {l : List (κ × α)} (h : dlookup k l = none) :
    (dinsert k v l).length = l.length + 1 := by
  rw [dinsert_of_none v h]; simp

/-! ### Store-level helper lemmas -/

theorem remove_fst (st : FeatureStore) (id : String) :
    (st.remove id).1 = (dlookup id st.records).isSome := by
  by_cases h : (dlookup id st.records).isSome <;>
    cases hidx : dlookup id st.id_to_idx <;>
      simp [FeatureStore.remove, h, hidx]

theorem remove_features (st : FeatureStore) (id : String) :
    ((st.remove id).2).features_matrix = st.features_matrix := by
  by_cases h : (dlookup id st.records).isSome <;>
    cases hidx : dlookup id st.id_to_idx <;>
      simp [FeatureStore.remove, h, hidx]

theorem remove_dimension (st : FeatureStore) (id : String) :
    ((st.remove id).2).dimension = st.dimension := by
  by_cases h : (dlookup id st.records).isSome <;>
    cases hidx : dlookup id st.id_to_idx <;>
      simp [FeatureStore.remove, h, hidx]

theorem video_id_of_mem_collect (st : FeatureStore) (k : ℕ)
    (lst : List (ℕ × ℝ)) (r : SearchResult)
    (hr : r ∈ collectResults st k lst) :
    ∃ i, dlookup i st.idx_to_id = some r.video_id := by
  induction lst generalizing k with
  | nil => simp [collectResults] at hr
  | cons p rest ih =>
    obtain ⟨idx, score⟩ := p
    cases hid : dlookup idx st.idx_to_id with
    | none =>
      simp only [collectResults, hid] at hr
      exact ih _ hr
    | some vid =>
      cases hrec : dlookup vid st.records with
      | none =>
        simp only [collectResults, hid, hrec] at hr
        exact ih _ hr
      | some rec =>
        simp only [collectResults, hid, hrec] at hr
        rcases List.mem_cons.mp hr with h1 | h2
        · subst h1; exact ⟨idx, hid⟩
        · by_cases hk : k ≤ 1
          · rw [if_pos hk] at h2; simp at h2
          · rw [if_neg hk] at h2; exact ih _ h2

theorem video_id_of_mem_search (st : FeatureStore) (q : Vec) (k : ℕ)
    (r : SearchResult) (hr : r ∈ st.search q k) :
    ∃ i, dlookup i st.idx_to_id = some r.video_id := by
  by_cases hsz : st.size = 0
  · simp [FeatureStore.search, hsz] at hr
  · simp only [FeatureStore.search, if_neg hsz] at hr
    exact video_id_of_mem_collect st _ _ r hr

theorem formatFlags_eq_nil {m : ReviewDecisionMaker} {md : VideoMetadata}
    (h : formatPasses m md) : formatFlags m md = [] := by
  rcases h with h | ⟨h1, h2⟩
  · simp [formatFlags, h]
  · simp [formatFlags, h1, h2]

/-! ### Claim theorems -/

/-- C2: `load(save(store))` yields a store with identical size, an
identical set of live ids, and search results identical to the original
(the model's arithmetic is exact, so "within floating-point tolerance"
becomes equality), for every query and every `k`. -/
theorem save_load_roundtrip (st st0 : FeatureStore) :
    (FeatureStore.load (FeatureStore.save st) st0).size = st.size ∧
    (FeatureStore.load (FeatureStore.save st) st0).records.map Prod.fst =
      st.records.map Prod.fst ∧
    ∀ (q : Vec) (top_k : ℕ),
      (FeatureStore.load (FeatureStore.save st) st0).search q top_k =
        st.search q top_k := by
  have h : FeatureStore.load (FeatureStore.save st) st0 = st := rfl
  rw [h]
  exact ⟨rfl, rfl, fun _ _ => rfl⟩

/-- C3: for every store with mutually-inverse slot mappings that contains
`id`, `remove id` returns true, leaves the vector storage length unchanged,
and no subsequent `search` (any query, any `top_k`) returns a result whose
`video_id` equals `id`. -/
theorem remove_tombstones_id (st : FeatureStore) (id : String)
    (hinv : SlotInverse st) (hrec : (dlookup id st.records).isSome) :
    (st.remove id).1 = true ∧
    ((st.remove id).2).features_matrix.length = st.features_matrix.length ∧
    ∀ (q : Vec) (top_k : ℕ) (r : SearchResult),
      r ∈ ((st.remove id).2).search q top_k → r.video_id ≠ id := by
  refine ⟨by rw [remove_fst]; exact hrec, by rw [remove_features], ?_⟩
  intro q top_k r hr hid
  obtain ⟨i, hi⟩ := video_id_of_mem_search _ _ _ _ hr
  rw [hid] at hi
  cases hidx : dlookup id st.id_to_idx with
  | some idx =>
    have h2 : ((st.remove id).2).idx_to_id = derase idx st.idx_to_id := by
      simp [FeatureStore.remove, hrec, hidx]
    rw [h2, dlookup_derase] at hi
    by_cases hik : i = idx
    · rw [if_pos hik] at hi; exact absurd hi (by simp)
    · rw [if_neg hik] at hi
      have hmem := mem_of_dlookup hi
      have hback := hinv (i, id) hmem
      rw [hidx] at hback
      exact hik (Option.some.inj hback).symm
  | none =>
    have h2 : ((st.remove id).2).idx_to_id = st.idx_to_id := by
      simp [FeatureStore.remove, hrec, hidx]
    rw [h2] at hi
    have hback := hinv (i, id) (mem_of_dlookup hi)
    rw [hidx] at hback
    exact absurd hback (by simp)

/-- C3 witness: the one-entry store `stOne` satisfies the hypotheses at
`id = "a"`, and the conclusion holds there. -/
theorem remove_tombstones_id_w :
    SlotInverse stOne ∧ (dlookup "a" stOne.records).isSome = true ∧
    ((stOne.remove "a").1 = true ∧
     ((stOne.remove "a").2).features_matrix.length =
       stOne.features_matrix.length ∧
     ∀ (q : Vec) (top_k : ℕ) (r : SearchResult),
       r ∈ ((stOne.remove "a").2).search q top_k → r.video_id ≠ "a") :=
  ⟨by decide, by decide, remove_tombstones_id stOne "a" (by decide) (by decide)⟩

/-- C6: an empty store searches to the empty list for every query and
`top_k`, and reviewing any asset that passes the format check against an
empty store yields `MANUAL_REVIEW` with confidence 0 and the
empty-whitelist reason. -/
theorem empty_store_manual_review :
    (∀ (st : FeatureStore) (q : Vec) (k : ℕ), st.size = 0 →
       st.search q k = []) ∧
    (∀ (m : ReviewDecisionMaker) (md : VideoMetadata) (f : Vec) (k : ℕ),
       formatPasses m md → m.store.size = 0 →
       m.review md f k =
         ⟨.manual_review, 0, .emptyStore, [], some md, some ["empty_store"]⟩) := by
  constructor
  · intro st q k h
    rw [FeatureStore.search, if_pos h]
  · intro m md f k hf h
    have hfl := formatFlags_eq_nil hf
    simp [ReviewDecisionMaker.review, hfl, h]

/-- C6 witness: a freshly initialised store and a format-passing review
against it. -/
theorem empty_store_manual_review_w :
    (FeatureStore.init 512 "flat").size = 0 ∧
    (FeatureStore.init 512 "flat").search [1] 5 = [] ∧
    formatPasses ⟨FeatureStore.init 512 "flat", 9 / 10, 6 / 10, true⟩ mdOk ∧
    (⟨FeatureStore.init 512 "flat", 9 / 10, 6 / 10, true⟩ :
        ReviewDecisionMaker).review mdOk [1] 5 =
      ⟨.manual_review, 0, .emptyStore, [], some mdOk, some ["empty_store"]⟩ :=
  ⟨rfl, empty_store_manual_review.1 _ [1] 5 rfl,
    Or.inr ⟨rfl, rfl⟩,
    empty_store_manual_review.2 _ mdOk [1] 5 (Or.inr ⟨rfl, rfl⟩) rfl⟩

/-- C7: `add` on an id already present with `overwrite = false` returns
false and leaves the entire store state unchanged, whatever the vector. -/
theorem add_existing_no_overwrite (st : FeatureStore) (id : String) (f : Vec)
    (p : String) (meta : Option Meta) (now : String)
    (h : (dlookup id st.records).isSome) :
    st.add id f p meta false now = (.ok false, st) := by
  simp [FeatureStore.add, h]

/-- C7 witness: adding `"a"` to `stOne` again, without overwrite, with a
vector of the wrong length even, returns false and does not mutate. -/
theorem add_existing_no_overwrite_w :
    (dlookup "a" stOne.records).isSome = true ∧
    stOne.add "a" [1, 2, 3] "p" none false "t1" = (.ok false, stOne) :=
  ⟨by decide, add_existing_no_overwrite stOne "a" [1, 2, 3] "p" none "t1" (by decide)⟩

/-- C10: `add` with `overwrite = true` on a present id and a vector of the
wrong dimension raises the dimension error, yet the store has already been
mutated: the old record is gone from `records` and from both slot
mappings. -/
theorem overwrite_dim_mismatch_mutates (st : FeatureStore) (id : String)
    (idx : ℕ) (f : Vec) (p : String) (meta : Option Meta) (now : String)
    (hrec : (dlookup id st.records).isSome)
    (hidx : dlookup id st.id_to_idx = some idx)
    (hdim : f.length ≠ st.dimension) :
    st.add id f p meta true now = (.dimMismatch, (st.remove id).2) ∧
    dlookup id ((st.add id f p meta true now).2).records = none ∧
    dlookup id ((st.add id f p meta true now).2).id_to_idx = none ∧
    dlookup idx ((st.add id f p meta true now).2).idx_to_id = none := by
  have hdim' : f.length ≠ ((st.remove id).2).dimension := by
    rw [remove_dimension]; exact hdim
  have h1 : st.add id f p meta true now = (.dimMismatch, (st.remove id).2) := by
    rw [FeatureStore.add, if_pos hrec]
    simp only [if_pos rfl]
    rw [FeatureStore.addFresh, if_pos hdim']
    simp
  have h2 : ((st.remove id).2).records = derase id st.records := by
    simp [FeatureStore.remove, hrec, hidx]
  have h3 : ((st.remove id).2).id_to_idx = derase id st.id_to_idx := by
    simp [FeatureStore.remove, hrec, hidx]
  have h4 : ((st.remove id).2).idx_to_id = derase idx st.idx_to_id := by
    simp [FeatureStore.remove, hrec, hidx]
  refine ⟨h1, ?_, ?_, ?_⟩
  · rw [h1]
    show dlookup id ((st.remove id).2).records = none
    rw [h2, dlookup_derase, if_pos rfl]
  · rw [h1]
    show dlookup id ((st.remove id).2).id_to_idx = none
    rw [h3, dlookup_derase, if_pos rfl]
  · rw [h1]
    show dlookup idx ((st.remove id).2).idx_to_id = none
    rw [h4, dlookup_derase, if_pos rfl]

/-- C10 witness: `stOne` contains `"a"` at slot 0; an overwrite add with a
length-2 vector against dimension 1 raises and leaves `"a"` deleted. -/
theorem overwrite_dim_mismatch_mutates_w :
    (dlookup "a" stOne.records).isSome = true ∧
    dlookup "a" stOne.id_to_idx = some 0 ∧
    [(1 : ℝ), 2].length ≠ stOne.dimension ∧
    (stOne.add "a" [1, 2] "p" none true "t1" =
       (.dimMismatch, (stOne.remove "a").2) ∧
     dlookup "a" ((stOne.add "a" [1, 2] "p" none true "t1").2).records = none ∧
     dlookup "a" ((stOne.add "a" [1, 2] "p" none true "t1").2).id_to_idx = none ∧
     dlookup 0 ((stOne.add "a" [1, 2] "p" none true "t1").2).idx_to_id = none) :=
  ⟨by decide, by decide, by decide,
    overwrite_dim_mismatch_mutates stOne "a" 0 [1, 2] "p" none "t1"
      (by decide) (by decide) (by decide)⟩

/-! ### Decision-engine helper lemmas -/

theorem review_format_result (m : ReviewDecisionMaker) (md : VideoMetadata)
    (f : Vec) (k : ℕ) (hfl : formatFlags m md ≠ []) :
    m.review md f k = ⟨.rejected, 1, .formatViolation (formatFlags m md), [],
      some md, some (formatFlags m md)⟩ := by
  simp only [ReviewDecisionMaker.review]
  rw [if_pos hfl]

theorem review_empty_result (m : ReviewDecisionMaker) (md : VideoMetadata)
    (f : Vec) (k : ℕ) (hfl : formatFlags m md = []) (hsz : m.store.size = 0) :
    m.review md f k = ⟨.manual_review, 0, .emptyStore, [], some md,
      some ["empty_store"]⟩ := by
  simp [ReviewDecisionMaker.review, hfl, hsz]

theorem review_no_match_result (m : ReviewDecisionMaker) (md : VideoMetadata)
    (f : Vec) (k : ℕ) (hfl : formatFlags m md = []) (hsz : m.store.size ≠ 0)
    (hs : m.store.search f k = []) :
    m.review md f k = ⟨.manual_review, 0, .noMatch, [], some md,
      some ["no_match"]⟩ := by
  simp [ReviewDecisionMaker.review, hfl, hsz, hs]

theorem review_of_search_cons (m : ReviewDecisionMaker) (md : VideoMetadata)
    (f : Vec) (k : ℕ) (r : SearchResult) (rest : List SearchResult)
    (hfl : formatFlags m md = []) (hsz : m.store.size ≠ 0)
    (hs : m.store.search f k = r :: rest) :
    m.review md f k =
      if r.similarity ≥ m.auto_pass_threshold then
        ⟨.approved, r.similarity, .highSimilarity r.similarity, r :: rest,
          some md, none⟩
      else if r.similarity ≤ m.auto_reject_threshold then
        ⟨.rejected, r.similarity, .lowSimilarity r.similarity, r :: rest,
          some md, some ["low_similarity"]⟩
      else
        ⟨.manual_review, r.similarity, .midSimilarity r.similarity, r :: rest,
          some md, none⟩ := by
  simp [ReviewDecisionMaker.review, hfl, hsz, hs, optFlags]

theorem search_cons_size_ne_zero {st : FeatureStore} {f : Vec} {k : ℕ}
    {r : SearchResult} {rest : List SearchResult}
    (hs : st.search f k = r :: rest) : st.size ≠ 0 := by
  intro h0
  rw [FeatureStore.search, if_pos h0] at hs
  exact List.noConfusion hs

/-! ### Numeric evaluation of the one-entry store -/

theorem sumSq_cons (x : ℝ) (v : Vec) : sumSq (x :: v) = x * x + sumSq v := by
  simp [sumSq]

theorem l2norm_single_one : l2norm [(1 : ℝ)] = 1 := by
  rw [l2norm]
  norm_num [sumSq]

theorem normalize_single_one : normalize [(1 : ℝ)] = [simOne] := by
  rw [normalize, l2norm_single_one]
  simp [simOne]

theorem search_stOne : stOne.search [1] 5 = [⟨"a", simOne, recA⟩] := by
  rw [FeatureStore.search, if_neg (by decide : ¬ stOne.size = 0)]
  simp only [stOne, normalize_single_one]
  simp [dot, collectResults, dlookup, List.insertionSort, List.orderedInsert,
    List.enum, List.enumFrom]

/-! ### C1 and C5 -/

/-- C1: whenever the format check passes and the store search returns a
non-empty list headed by similarity `s`, the decision is `APPROVED` with
confidence `s` when `s ≥ auto_pass_threshold`; otherwise `REJECTED` with
confidence `s` and the `low_similarity` flag when `s ≤
auto_reject_threshold`; otherwise `MANUAL_REVIEW` with confidence `s`. -/
theorem similarity_threshold_rule (m : ReviewDecisionMaker)
    (md : VideoMetadata) (f : Vec) (k : ℕ) (r : SearchResult)
    (rest : List SearchResult) (hfmt : formatPasses m md)
    (hs : m.store.search f k = r :: rest) :
    (r.similarity ≥ m.auto_pass_threshold →
       (m.review md f k).decision = .approved ∧
       (m.review md f k).confidence = r.similarity) ∧
    (¬ r.similarity ≥ m.auto_pass_threshold →
       r.similarity ≤ m.auto_reject_threshold →
       (m.review md f k).decision = .rejected ∧
       (m.review md f k).confidence = r.similarity ∧
       (m.review md f k).flags = some ["low_similarity"]) ∧
    (¬ r.similarity ≥ m.auto_pass_threshold →
       ¬ r.similarity ≤ m.auto_reject_threshold →
       (m.review md f k).decision = .manual_review ∧
       (m.review md f k).confidence = r.similarity) := by
  have hfl := formatFlags_eq_nil hfmt
  have hsz := search_cons_size_ne_zero hs
  rw [review_of_search_cons m md f k r rest hfl hsz hs]
  refine ⟨fun h1 => ?_, fun h1 h2 => ?_, fun h1 h2 => ?_⟩
  · rw [if_pos h1]; exact ⟨rfl, rfl⟩
  · rw [if_neg h1, if_pos h2]; exact ⟨rfl, rfl, rfl⟩
  · rw [if_neg h1, if_neg h2]; exact ⟨rfl, rfl⟩

/-- C1 witness: a decision maker over `stOne` with format checking enabled,
reviewing a format-clean asset whose search result is non-empty. -/
theorem similarity_threshold_rule_w :
    formatPasses ⟨stOne, 9 / 10, 6 / 10, true⟩ mdOk ∧
    (⟨stOne, 9 / 10, 6 / 10, true⟩ : ReviewDecisionMaker).store.search [1] 5 =
      ⟨"a", simOne, recA⟩ :: [] ∧
    ((SearchResult.similarity ⟨"a", simOne, recA⟩ ≥
        (⟨stOne, 9 / 10, 6 / 10, true⟩ : ReviewDecisionMaker).auto_pass_threshold →
       ((⟨stOne, 9 / 10, 6 / 10, true⟩ : ReviewDecisionMaker).review mdOk [1] 5).decision = .approved ∧
       ((⟨stOne, 9 / 10, 6 / 10, true⟩ : ReviewDecisionMaker).review mdOk [1] 5).confidence =
         SearchResult.similarity ⟨"a", simOne, recA⟩) ∧
     (¬ SearchResult.similarity ⟨"a", simOne, recA⟩ ≥
        (⟨stOne, 9 / 10, 6 / 10, true⟩ : ReviewDecisionMaker).auto_pass_threshold →
       SearchResult.similarity ⟨"a", simOne, recA⟩ ≤
         (⟨stOne, 9 / 10, 6 / 10, true⟩ : ReviewDecisionMaker).auto_reject_threshold →
       ((⟨stOne, 9 / 10, 6 / 10, true⟩ : ReviewDecisionMaker).review mdOk [1] 5).decision = .rejected ∧
       ((⟨stOne, 9 / 10, 6 / 10, true⟩ : ReviewDecisionMaker).review mdOk [1] 5).confidence =
         SearchResult.similarity ⟨"a", simOne, recA⟩ ∧
       ((⟨stOne, 9 / 10, 6 / 10, true⟩ : ReviewDecisionMaker).review mdOk [1] 5).flags =
         some ["low_similarity"]) ∧
     (¬ SearchResult.similarity ⟨"a", simOne, recA⟩ ≥
        (⟨stOne, 9 / 10, 6 / 10, true⟩ : ReviewDecisionMaker).auto_pass_threshold →
       ¬ SearchResult.similarity ⟨"a", simOne, recA⟩ ≤
         (⟨stOne, 9 / 10, 6 / 10, true⟩ : ReviewDecisionMaker).auto_reject_threshold →
       ((⟨stOne, 9 / 10, 6 / 10, true⟩ : ReviewDecisionMaker).review mdOk [1] 5).decision = .manual_review ∧
       ((⟨stOne, 9 / 10, 6 / 10, true⟩ : ReviewDecisionMaker).review mdOk [1] 5).confidence =
         SearchResult.similarity ⟨"a", simOne, recA⟩)) :=
  ⟨Or.inr ⟨rfl, rfl⟩, search_stOne,
    similarity_threshold_rule _ mdOk [1] 5 _ [] (Or.inr ⟨rfl, rfl⟩) search_stOne⟩

/-- C5: with format checking enabled and a vertical or black-bordered
asset, the review is `REJECTED` with confidence 1, the flags list exactly
the violations present, the similar-videos list is empty, and the outcome
is independent of the store contents (the store is never consulted). -/
theorem format_violation_rejects (m : ReviewDecisionMaker)
    (md : VideoMetadata) (f : Vec) (k : ℕ)
    (hen : m.enable_format_check = true)
    (hviol : md.is_vertical = true ∨ md.has_black_borders = true) :
    formatFlags m md ≠ [] ∧
    ("vertical_video" ∈ formatFlags m md ↔ md.is_vertical = true) ∧
    ("black_borders" ∈ formatFlags m md ↔ md.has_black_borders = true) ∧
    m.review md f k = ⟨.rejected, 1, .formatViolation (formatFlags m md), [],
      some md, some (formatFlags m md)⟩ ∧
    ∀ st' : FeatureStore,
      ({ m with store := st' } : ReviewDecisionMaker).review md f k =
        m.review md f k := by
  have hne : formatFlags m md ≠ [] := by
    rcases hviol with h | h
    · simp [formatFlags, hen, h]
    · by_cases hv : md.is_vertical = true <;> simp [formatFlags, hen, h, hv]
  refine ⟨hne, ?_, ?_, review_format_result m md f k hne, ?_⟩
  · by_cases hv : md.is_vertical = true <;>
      by_cases hb : md.has_black_borders = true <;>
        simp [formatFlags, hen, hv, hb]
  · by_cases hv : md.is_vertical = true <;>
      by_cases hb : md.has_black_borders = true <;>
        simp [formatFlags, hen, hv, hb]
  · intro st'
    rw [review_format_result m md f k hne,
      review_format_result { m with store := st' } md f k hne]
    rfl

/-- C5 witness: a vertical video reviewed with format checking enabled. -/
theorem format_violation_rejects_w :
    (⟨stOne, 9 / 10, 6 / 10, true⟩ : ReviewDecisionMaker).enable_format_check = true ∧
    (mdVertical.is_vertical = true ∨ mdVertical.has_black_borders = true) ∧
    (formatFlags ⟨stOne, 9 / 10, 6 / 10, true⟩ mdVertical ≠ [] ∧
     ("vertical_video" ∈ formatFlags ⟨stOne, 9 / 10, 6 / 10, true⟩ mdVertical ↔
        mdVertical.is_vertical = true) ∧
     ("black_borders" ∈ formatFlags ⟨stOne, 9 / 10, 6 / 10, true⟩ mdVertical ↔
        mdVertical.has_black_borders = true) ∧
     (⟨stOne, 9 / 10, 6 / 10, true⟩ : ReviewDecisionMaker).review mdVertical [1] 5 =
       ⟨.rejected, 1,
         .formatViolation (formatFlags ⟨stOne, 9 / 10, 6 / 10, true⟩ mdVertical),
         [], some mdVertical,
         some (formatFlags ⟨stOne, 9 / 10, 6 / 10, true⟩ mdVertical)⟩ ∧
     ∀ st' : FeatureStore,
       ({ store := st', auto_pass_threshold := 9 / 10,
          auto_reject_threshold := 6 / 10, enable_format_check := true } :
           ReviewDecisionMaker).review mdVertical [1] 5 =
         (⟨stOne, 9 / 10, 6 / 10, true⟩ : ReviewDecisionMaker).review mdVertical [1] 5) :=
  ⟨rfl, Or.inl rfl,
    format_violation_rejects ⟨stOne, 9 / 10, 6 / 10, true⟩ mdVertical [1] 5 rfl
      (Or.inl rfl)⟩

/-! ### C4: threshold monotonicity -/

theorem simOne_lt_one : simOne < 1 := by
  rw [simOne, eps, div_lt_one (by norm_num)]
  norm_num

/-- C4 counterexample: with `auto_reject_threshold = auto_pass_threshold`
(allowed by the claim's hypothesis `auto_reject ≤ auto_pass`), raising
`auto_pass_threshold` turns an `APPROVED` outcome into `REJECTED`, not
`MANUAL_REVIEW`: the top similarity `simOne` satisfies both `s ≥ pass`
before the raise and `s ≤ reject` after it. -/
theorem threshold_monotonicity_cex :
    cexM.auto_reject_threshold ≤ cexM.auto_pass_threshold ∧
    cexM.auto_pass_threshold ≤ 1 ∧
    (cexM.review mdOk [1] 5).decision = .approved ∧
    ((cexM.update_thresholds (some 1) none).review mdOk [1] 5).decision =
      .rejected := by
  have hfl : formatFlags cexM mdOk = [] := by simp [formatFlags, cexM]
  have hsz : cexM.store.size ≠ 0 := by decide
  have hs : cexM.store.search [1] 5 = ⟨"a", simOne, recA⟩ :: [] := search_stOne
  refine ⟨le_refl _, le_of_lt simOne_lt_one, ?_, ?_⟩
  · rw [review_of_search_cons cexM mdOk [1] 5 _ [] hfl hsz hs,
      if_pos (show SearchResult.similarity ⟨"a", simOne, recA⟩ ≥
        cexM.auto_pass_threshold from le_refl simOne)]
  · have hs' : (cexM.update_thresholds (some 1) none).store.search [1] 5 =
        ⟨"a", simOne, recA⟩ :: [] := search_stOne
    rw [review_of_search_cons (cexM.update_thresholds (some 1) none) mdOk
        [1] 5 _ [] hfl hsz hs',
      if_neg (show ¬ SearchResult.similarity ⟨"a", simOne, recA⟩ ≥
        (cexM.update_thresholds (some 1) none).auto_pass_threshold from
          not_le.mpr simOne_lt_one),
      if_pos (show SearchResult.similarity ⟨"a", simOne, recA⟩ ≤
        (cexM.update_thresholds (some 1) none).auto_reject_threshold from
          le_refl simOne)]

/-- C4 (amended: the thresholds must be strictly separated,
`auto_reject_threshold < auto_pass_threshold`; with equality the
counterexample above applies): for fixed metadata and store contents,
raising `auto_pass_threshold` can change an `APPROVED` outcome only to
`MANUAL_REVIEW`, never to `REJECTED`, and never turns a non-`APPROVED`
outcome into `APPROVED`; lowering `auto_reject_threshold` can change a
`REJECTED` outcome only toward `MANUAL_REVIEW`, never to `APPROVED`. -/
theorem threshold_monotonicity (m : ReviewDecisionMaker) (md : VideoMetadata)
    (f : Vec) (k : ℕ) (p' r' : ℝ)
    (hlt : m.auto_reject_threshold < m.auto_pass_threshold)
    (hp : m.auto_pass_threshold ≤ p') (hr : r' ≤ m.auto_reject_threshold) :
    ((m.review md f k).decision = .approved →
       ((m.update_thresholds (some p') none).review md f k).decision =
           .approved ∨
       ((m.update_thresholds (some p') none).review md f k).decision =
           .manual_review) ∧
    ((m.review md f k).decision ≠ .approved →
       ((m.update_thresholds (some p') none).review md f k).decision ≠
         .approved) ∧
    ((m.review md f k).decision = .rejected →
       ((m.update_thresholds none (some r')).review md f k).decision =
           .rejected ∨
       ((m.update_thresholds none (some r')).review md f k).decision =
           .manual_review) := by
  by_cases hfl : formatFlags m md = []
  · by_cases hsz : m.store.size = 0
    · rw [review_empty_result m md f k hfl hsz,
        review_empty_result (m.update_thresholds (some p') none) md f k hfl hsz,
        review_empty_result (m.update_thresholds none (some r')) md f k hfl hsz]
      exact ⟨fun h => by simp at h, fun h hc => by simp at hc,
        fun h => by simp at h⟩
    · cases hs : m.store.search f k with
      | nil =>
        rw [review_no_match_result m md f k hfl hsz hs,
          review_no_match_result (m.update_thresholds (some p') none) md f k
            hfl hsz hs,
          review_no_match_result (m.update_thresholds none (some r')) md f k
            hfl hsz hs]
        exact ⟨fun h => by simp at h, fun h hc => by simp at hc,
          fun h => by simp at h⟩
      | cons r rest =>
        have hm := review_of_search_cons m md f k r rest hfl hsz hs
        have hmp := review_of_search_cons (m.update_thresholds (some p') none)
          md f k r rest hfl hsz hs
        have hmr := review_of_search_cons (m.update_thresholds none (some r'))
          md f k r rest hfl hsz hs
        refine ⟨fun ha => ?_, fun hb hc => ?_, fun hc => ?_⟩
        · rw [hm] at ha
          rw [hmp]
          by_cases h1 : r.similarity ≥ m.auto_pass_threshold
          · by_cases h2 : r.similarity ≥
                (m.update_thresholds (some p') none).auto_pass_threshold
            · left; rw [if_pos h2]
            · right
              rw [if_neg h2,
                if_neg (show ¬ r.similarity ≤
                    (m.update_thresholds (some p') none).auto_reject_threshold
                  from not_le.mpr (lt_of_lt_of_le hlt h1))]
          · rw [if_neg h1] at ha
            by_cases h2 : r.similarity ≤ m.auto_reject_threshold
            · rw [if_pos h2] at ha; simp at ha
            · rw [if_neg h2] at ha; simp at ha
        · apply hb
          rw [hmp] at hc
          rw [hm]
          by_cases h2 : r.similarity ≥
              (m.update_thresholds (some p') none).auto_pass_threshold
          · rw [if_pos (show r.similarity ≥ m.auto_pass_threshold from
              le_trans hp h2)]
          · rw [if_neg h2] at hc
            by_cases h3 : r.similarity ≤
                (m.update_thresholds (some p') none).auto_reject_threshold
            · rw [if_pos h3] at hc; simp at hc
            · rw [if_neg h3] at hc; simp at hc
        · rw [hm] at hc
          rw [hmr]
          by_cases h1 : r.similarity ≥ m.auto_pass_threshold
          · rw [if_pos h1] at hc; simp at hc
          · rw [if_neg h1] at hc
            rw [if_neg (show ¬ r.similarity ≥
                (m.update_thresholds none (some r')).auto_pass_threshold
              from h1)]
            by_cases h3 : r.similarity ≤
                (m.update_thresholds none (some r')).auto_reject_threshold
            · left; rw [if_pos h3]
            · right; rw [if_neg h3]
  · rw [review_format_result m md f k hfl,
      review_format_result (m.update_thresholds (some p') none) md f k hfl,
      review_format_result (m.update_thresholds none (some r')) md f k hfl]
    exact ⟨fun h => by simp at h, fun h hc => by simp at hc, fun h => Or.inl rfl⟩

/-- C4 witness: thresholds `0.6 < 0.9`, raised pass `0.95`, lowered reject
`0.55`, over `stOne`. -/
theorem threshold_monotonicity_w :
    ((⟨stOne, 9 / 10, 6 / 10, true⟩ : ReviewDecisionMaker).auto_reject_threshold <
       (⟨stOne, 9 / 10, 6 / 10, true⟩ : ReviewDecisionMaker).auto_pass_threshold) ∧
    ((⟨stOne, 9 / 10, 6 / 10, true⟩ : ReviewDecisionMaker).auto_pass_threshold ≤
       95 / 100) ∧
    ((55 : ℝ) / 100 ≤
       (⟨stOne, 9 / 10, 6 / 10, true⟩ : ReviewDecisionMaker).auto_reject_threshold) ∧
    ((((⟨stOne, 9 / 10, 6 / 10, true⟩ : ReviewDecisionMaker).review mdOk [1] 5).decision = .approved →
        (((⟨stOne, 9 / 10, 6 / 10, true⟩ : ReviewDecisionMaker).update_thresholds
            (some (95 / 100)) none).review mdOk [1] 5).decision = .approved ∨
        (((⟨stOne, 9 / 10, 6 / 10, true⟩ : ReviewDecisionMaker).update_thresholds
            (some (95 / 100)) none).review mdOk [1] 5).decision = .manual_review) ∧
     (((⟨stOne, 9 / 10, 6 / 10, true⟩ : ReviewDecisionMaker).review mdOk [1] 5).decision ≠ .approved →
        (((⟨stOne, 9 / 10, 6 / 10, true⟩ : ReviewDecisionMaker).update_thresholds
            (some (95 / 100)) none).review mdOk [1] 5).decision ≠ .approved) ∧
     (((⟨stOne, 9 / 10, 6 / 10, true⟩ : ReviewDecisionMaker).review mdOk [1] 5).decision = .rejected →
        (((⟨stOne, 9 / 10, 6 / 10, true⟩ : ReviewDecisionMaker).update_thresholds
            none (some (55 / 100))).review mdOk [1] 5).decision = .rejected ∨
        (((⟨stOne, 9 / 10, 6 / 10, true⟩ : ReviewDecisionMaker).update_thresholds
            none (some (55 / 100))).review mdOk [1] 5).decision = .manual_review)) :=
  ⟨by norm_num, by norm_num, by norm_num,
    threshold_monotonicity ⟨stOne, 9 / 10, 6 / 10, true⟩ mdOk [1] 5 (95 / 100)
      (55 / 100) (by norm_num) (by norm_num) (by norm_num)⟩

/-! ### C8: the size / storage invariant -/

theorem remove_records (st : FeatureStore) (id : String) :
    ((st.remove id).2).records =
      if (dlookup id st.records).isSome then derase id st.records
      else st.records := by
  by_cases h : (dlookup id st.records).isSome <;>
    cases hidx : dlookup id st.id_to_idx <;>
      simp [FeatureStore.remove, h, hidx]

theorem remove_of_absent (st : FeatureStore) (id : String)
    (h : ¬ (dlookup id st.records).isSome) : (st.remove id).2 = st := by
  simp [FeatureStore.remove, h]

theorem addFresh_features (st : FeatureStore) (id : String) (f : Vec)
    (p : String) (meta : Option Meta) (now : String) :
    st.features_matrix.length ≤
      ((st.addFresh id f p meta now).2).features_matrix.length := by
  rw [FeatureStore.addFresh]
  by_cases hd : f.length ≠ st.dimension
  · rw [if_pos hd]
  · rw [if_neg hd]; simp

theorem applyOp_features_mono (st : FeatureStore) (op : StoreOp) :
    st.features_matrix.length ≤ (applyOp st op).features_matrix.length := by
  cases op with
  | removeOp id => simp [applyOp, remove_features]
  | addOp id f p meta ow now =>
    show st.features_matrix.length ≤
      ((st.add id f p meta ow now).2).features_matrix.length
    rw [FeatureStore.add]
    by_cases h : (dlookup id st.records).isSome
    · rw [if_pos h]
      cases ow with
      | false => simp
      | true =>
        have h1 := addFresh_features (st.remove id).2 id f p meta now
        rw [remove_features] at h1
        simpa using h1
    · rw [if_neg h]
      exact addFresh_features st id f p meta now

theorem size_step (st : FeatureStore) (op : StoreOp) (hnd : keysNodup st) :
    (applyOp st op).size + (opCounts st op).2 = st.size + (opCounts st op).1 ∧
    keysNodup (applyOp st op) := by
  cases op with
  | removeOp id =>
    by_cases h : (dlookup id st.records).isSome
    · have hrec := remove_records st id
      rw [if_pos h] at hrec
      have hlen := length_derase hnd h
      have hc1 : (opCounts st (.removeOp id)).1 = 0 := rfl
      have hc2 : (opCounts st (.removeOp id)).2 = 1 := by
        simp [opCounts, remove_fst, h]
      constructor
      · rw [hc1, hc2]
        show (st.remove id).2.size + 1 = st.size + 0
        rw [FeatureStore.size, FeatureStore.size, hrec]
        omega
      · show keysNodup (st.remove id).2
        rw [keysNodup, hrec]
        exact nodup_keys_derase hnd
    · have hst := remove_of_absent st id h
      have hc2 : (opCounts st (.removeOp id)).2 = 0 := by
        simp [opCounts, remove_fst, h]
      constructor
      · rw [hc2]
        show (st.remove id).2.size + 0 = st.size + 0
        rw [hst]
      · show keysNodup (st.remove id).2
        rw [hst]; exact hnd
  | addOp id f p meta ow now =>
    by_cases h : (dlookup id st.records).isSome
    · cases ow with
      | false =>
        have hadd : st.add id f p meta false now = (.ok false, st) := by
          simp [FeatureStore.add, h]
        have hc1 : (opCounts st (.addOp id f p meta false now)).1 = 0 := by
          simp [opCounts, hadd]
        have hc2 : (opCounts st (.addOp id f p meta false now)).2 = 0 := by
          simp [opCounts]
        constructor
        · rw [hc1, hc2]
          show (st.add id f p meta false now).2.size + 0 = st.size + 0
          rw [hadd]
        · show keysNodup (st.add id f p meta false now).2
          rw [hadd]; exact hnd
      | true =>
        have hrec1 : ((st.remove id).2).records = derase id st.records := by
          have h0 := remove_records st id; rwa [if_pos h] at h0
        have hlen1 := length_derase hnd h
        have hnd1 : keysNodup (st.remove id).2 := by
          rw [keysNodup, hrec1]; exact nodup_keys_derase hnd
        have hadd : st.add id f p meta true now =
            ((st.remove id).2).addFresh id f p meta now := by
          simp [FeatureStore.add, h]
        have hc2 : (opCounts st (.addOp id f p meta true now)).2 = 1 := by
          simp [opCounts, h]
        by_cases hd : f.length ≠ ((st.remove id).2).dimension
        · have haf : ((st.remove id).2).addFresh id f p meta now =
              (.dimMismatch, (st.remove id).2) := by
            rw [FeatureStore.addFresh, if_pos hd]
          have hc1 : (opCounts st (.addOp id f p meta true now)).1 = 0 := by
            simp [opCounts, hadd, haf]
          constructor
          · rw [hc1, hc2]
            show (st.add id f p meta true now).2.size + 1 = st.size + 0
            rw [hadd, haf]
            show (st.remove id).2.size + 1 = st.size + 0
            rw [FeatureStore.size, FeatureStore.size, hrec1]
            omega
          · show keysNodup (st.add id f p meta true now).2
            rw [hadd, haf]; exact hnd1
        · have hlook1 : dlookup id ((st.remove id).2).records = none := by
            rw [hrec1, dlookup_derase, if_pos rfl]
          have hrecs2 : (((st.remove id).2).addFresh id f p meta now).2.records =
              dinsert id ⟨id, p, now, meta⟩ ((st.remove id).2).records := by
            rw [FeatureStore.addFresh, if_neg hd]
          have hout : (((st.remove id).2).addFresh id f p meta now).1 =
              .ok true := by
            rw [FeatureStore.addFresh, if_neg hd]
          have hc1 : (opCounts st (.addOp id f p meta true now)).1 = 1 := by
            simp [opCounts, hadd, hout]
          constructor
          · rw [hc1, hc2]
            show (st.add id f p meta true now).2.size + 1 = st.size + 1
            rw [hadd, FeatureStore.size, FeatureStore.size, hrecs2,
              dinsert_of_none _ hlook1, hrec1]
            simp only [List.length_append, List.length_cons, List.length_nil]
            omega
          · show keysNodup (st.add id f p meta true now).2
            rw [hadd, keysNodup, hrecs2]
            exact nodup_keys_dinsert_of_none _ hnd1 hlook1
    · have hlookn : dlookup id st.records = none :=
        Option.not_isSome_iff_eq_none.mp h
      have hadd : st.add id f p meta ow now = st.addFresh id f p meta now := by
        simp [FeatureStore.add, h]
      have hc2 : (opCounts st (.addOp id f p meta ow now)).2 = 0 := by
        simp [opCounts, hlookn]
      by_cases hd : f.length ≠ st.dimension
      · have haf : st.addFresh id f p meta now = (.dimMismatch, st) := by
          rw [FeatureStore.addFresh, if_pos hd]
        have hc1 : (opCounts st (.addOp id f p meta ow now)).1 = 0 := by
          simp [opCounts, hadd, haf]
        constructor
        · rw [hc1, hc2]
          show (st.add id f p meta ow now).2.size + 0 = st.size + 0
          rw [hadd, haf]
        · show keysNodup (st.add id f p meta ow now).2
          rw [hadd, haf]; exact hnd
      · have hrecs2 : ((st.addFresh id f p meta now).2).records =
            dinsert id ⟨id, p, now, meta⟩ st.records := by
          rw [FeatureStore.addFresh, if_neg hd]
        have hout : (st.addFresh id f p meta now).1 = .ok true := by
          rw [FeatureStore.addFresh, if_neg hd]
        have hc1 : (opCounts st (.addOp id f p meta ow now)).1 = 1 := by
          simp [opCounts, hadd, hout]
        constructor
        · rw [hc1, hc2]
          show (st.add id f p meta ow now).2.size + 0 = st.size + 1
          rw [hadd, FeatureStore.size, FeatureStore.size, hrecs2,
            dinsert_of_none _ hlookn]
          simp
        · show keysNodup (st.add id f p meta ow now).2
          rw [hadd, keysNodup, hrecs2]
          exact nodup_keys_dinsert_of_none _ hnd hlookn

theorem runOps_size (ops : List StoreOp) : ∀ st : FeatureStore, keysNodup st →
    (runOps st ops).size + (traceCounts st ops).2 =
      st.size + (traceCounts st ops).1 ∧
    keysNodup (runOps st ops) := by
  induction ops with
  | nil => intro st h; exact ⟨by simp [runOps, traceCounts], h⟩
  | cons op rest ih =>
    intro st h
    obtain ⟨hstep, hnd'⟩ := size_step st op h
    obtain ⟨hrest, hndf⟩ := ih (applyOp st op) hnd'
    refine ⟨?_, by simpa [runOps] using hndf⟩
    simp only [runOps, traceCounts]
    omega

/-- C8: starting from an empty store, after any sequence of add/remove
operations the logical size equals the number of successful adds minus the
number of successful removes (a successful remove invocation is counted
also when `add(..., overwrite=true)` performs it internally, as the source
does at line 126); size is `len(records)` and never counts tombstoned
slots; and the vector storage is append-only — its length never decreases
under any operation on any store. -/
theorem size_accounting :
    (∀ (d : ℕ) (it : String) (ops : List StoreOp),
       ((runOps (FeatureStore.init d it) ops).size : ℤ) =
         ((traceCounts (FeatureStore.init d it) ops).1 : ℤ) -
           ((traceCounts (FeatureStore.init d it) ops).2 : ℤ) ∧
       (runOps (FeatureStore.init d it) ops).size =
         ((runOps (FeatureStore.init d it) ops).records).length) ∧
    (∀ (st : FeatureStore) (op : StoreOp),
       st.features_matrix.length ≤ (applyOp st op).features_matrix.length) := by
  constructor
  · intro d it ops
    have h := runOps_size ops (FeatureStore.init d it)
      (by simp [keysNodup, FeatureStore.init])
    have h1 := h.1
    have h0 : (FeatureStore.init d it).size = 0 := rfl
    exact ⟨by omega, rfl⟩
  · exact applyOp_features_mono

/-! ### C9: the norm of stored vectors -/

theorem eps_pos : (0 : ℝ) < eps := by
  rw [eps]; norm_num

theorem sumSq_nonneg (v : Vec) : 0 ≤ sumSq v := by
  refine List.sum_nonneg ?_
  intro x hx
  obtain ⟨y, _, rfl⟩ := List.mem_map.mp hx
  exact mul_self_nonneg y

theorem l2norm_nonneg (v : Vec) : 0 ≤ l2norm v := Real.sqrt_nonneg _

theorem sumSq_map_div (v : Vec) (c : ℝ) :
    sumSq (v.map fun x => x / c) = sumSq v / (c * c) := by
  induction v with
  | nil => simp [sumSq]
  | cons x rest ih =>
    rw [List.map_cons, sumSq_cons, sumSq_cons, ih]
    ring

theorem l2norm_map_div (v : Vec) (c : ℝ) (hc : 0 ≤ c) :
    l2norm (v.map fun x => x / c) = l2norm v / c := by
  rw [l2norm, sumSq_map_div, Real.sqrt_div (sumSq_nonneg v),
    Real.sqrt_mul_self hc, l2norm]

theorem normalize_l2norm (v : Vec) :
    l2norm (normalize v) = l2norm v / (l2norm v + eps) := by
  rw [normalize, l2norm_map_div v _ (add_nonneg (l2norm_nonneg v) eps_pos.le)]

/-- C9 counterexample: the vector `[1e-8]` is not the zero vector, yet its
stored representation has L2 norm exactly `1/2` — far outside any
floating-point tolerance of 1.  The claim's "regardless of the magnitude of
v" fails for vectors whose norm is comparable to the `1e-8` epsilon
floor. -/
theorem stored_norm_cex :
    ([eps] : Vec) ≠ [0] ∧ l2norm (normalize [eps]) = 1 / 2 ∧
    ¬ |l2norm (normalize [eps]) - 1| ≤ 1 / 100 := by
  have h1 : l2norm [eps] = eps := by
    rw [l2norm, sumSq]
    simp [Real.sqrt_mul_self eps_pos.le]
  have hne : eps + eps ≠ 0 := ne_of_gt (by linarith [eps_pos])
  have h2 : l2norm (normalize [eps]) = 1 / 2 := by
    rw [normalize_l2norm, h1]
    field_simp
    ring
  refine ⟨?_, h2, ?_⟩
  · intro h
    rw [List.cons.injEq] at h
    have h3 := h.1
    rw [eps] at h3
    norm_num at h3
  · rw [h2]
    rw [show (1 : ℝ) / 2 - 1 = -(1 / 2) by ring, abs_neg,
      abs_of_nonneg (by norm_num : (0 : ℝ) ≤ 1 / 2)]
    norm_num

/-- C9 (amended): the stored representation of `v` has L2 norm
`‖v‖ / (‖v‖ + 1e-8)` exactly; whenever `‖v‖ ≥ 1` this is within `1e-8` of
1, but vectors whose norm is comparable to the epsilon floor — not only
the exact zero vector — are left far from unit norm. -/
theorem stored_norm :
    (∀ v : Vec, l2norm (normalize v) = l2norm v / (l2norm v + eps)) ∧
    (∀ v : Vec, 1 ≤ l2norm v → |l2norm (normalize v) - 1| ≤ eps) := by
  refine ⟨normalize_l2norm, fun v hv => ?_⟩
  rw [normalize_l2norm v]
  have hpos : 0 < l2norm v + eps := by linarith [eps_pos]
  have h1 : l2norm v / (l2norm v + eps) - 1 = -(eps / (l2norm v + eps)) := by
    field_simp
  rw [h1, abs_neg, abs_of_nonneg (div_nonneg eps_pos.le hpos.le)]
  exact div_le_self eps_pos.le (by linarith [eps_pos])

/-- C9 witness: the unit vector `[1]` has norm 1 and its stored norm is
within `1e-8` of 1. -/
theorem stored_norm_w :
    1 ≤ l2norm [(1 : ℝ)] ∧ |l2norm (normalize [(1 : ℝ)]) - 1| ≤ eps :=
  ⟨le_of_eq l2norm_single_one.symm,
    stored_norm.2 [1] (le_of_eq l2norm_single_one.symm)⟩

end VideoJiancha
